import Mathlib

/-
Shallow embedding of `packages/plugin/src/code-gen/message-class-generator.ts`.

The TypeScript source builds, for one schema message, a constructor-based
class declaration: one constructor parameter per field, with each oneof
group collapsed into a single parameter of a discriminated-union type.
Thrown JavaScript errors (the `assert` helper and the explicit
`throw new Error("unknown kind ...")`) are embedded as `Except.error`.
External collaborators (the interpreter, import/name resolution) are
deterministic functions carried in a context record; the side-effecting
comment collaborator returns nothing that the generator consumes and is
omitted.  The mutated `TypescriptFile` is threaded explicitly as the list
of statements added so far.
-/

namespace MessageClassGen

/-- ScalarType from `@protobuf-ts/runtime` (`rt.ScalarType`). -/
inductive ScalarType where
  | DOUBLE | FLOAT | INT64 | UINT64 | INT32 | FIXED64 | FIXED32 | BOOL
  | STRING | BYTES | UINT32 | SFIXED32 | SFIXED64 | SINT32 | SINT64
deriving DecidableEq, Repr

/-- LongType from `@protobuf-ts/runtime` (`rt.LongType`): the representation
chosen for 64-bit integer fields. -/
inductive LongType where
  | BIGINT | STRING | NUMBER
deriving DecidableEq, Repr

/-- The TypeScript keyword type nodes the generator produces
(`ts.SyntaxKind.BooleanKeyword` etc.). -/
inductive KeywordKind where
  | boolean | string | number | bigint | undefined
deriving DecidableEq, Repr

/-- The fragment of the `ts.TypeNode` / `ts.TypeElement` AST that the
generator constructs.  TypeScript's factory functions all return plain
`ts.Node`s; we model the ones used: keyword types, type references
(`ts.createTypeReferenceNode`), string-literal types
(`ts.createLiteralTypeNode(ts.createStringLiteral s)`), array types,
property signatures, index signatures (whose value type may be left
`undefined`), type literals and union types. -/
inductive TypeNode where
  | keyword (k : KeywordKind)
  | typeRef (name : String)
  | litString (s : String)
  | array (elem : TypeNode)
  | propSig (name : String) (optional : Bool) (type : TypeNode)
  | indexSig (keyName : String) (keyType : TypeNode) (valueType : Option TypeNode)
  | typeLiteral (members : List TypeNode)
  | union (cases : List TypeNode)
deriving Repr

/-- Map value metadata (`fieldInfo.V`).  `fieldInfo.V.kind` is a string at
runtime; the inner switch of `createTypeNode` handles `scalar`, `enum` and
`message`, so any other runtime value is modelled by `unknownValueKind`. -/
inductive MapValueKind where
  | scalar (T : ScalarType) (L : Option LongType)
  | enum (name : String)
  | message (name : String)
  | unknownValueKind (tag : String)
deriving Repr

/-- Field kind metadata (`fieldInfo.kind` together with the kind-specific
payload of `rt.FieldInfo`).  Enum and message references carry the resolved
type name (what `fieldInfo.T()` yields once resolved).  `fieldInfo.kind` is
a string at runtime; any value outside the switch's cases is modelled by
`unknownFieldKind`, which is what the `default:` branch of `createTypeNode`
receives. -/
inductive FieldKind where
  | scalar (T : ScalarType) (L : Option LongType)
  | enum (name : String)
  | message (name : String)
  | map (K : ScalarType) (V : MapValueKind)
  | unknownFieldKind (tag : String)
deriving Repr

/-- One entry of `interpreterType.fields` (`rt.FieldInfo`): field number,
local name, kind payload, owning oneof's local name (if any), repeat flag
(`fieldInfo.repeat`, truthiness of the RepeatType enum) and the explicit
optionality flag `fieldInfo.opt`. -/
structure FieldInfo where
  no : Nat
  localName : String
  kind : FieldKind
  oneof : Option String
  «repeat» : Bool
  opt : Bool
deriving Repr

/-- A schema field descriptor (`DescField` from `@bufbuild/protobuf`) in the
parts the generator reads: `number`, its printable `name` (standing in for
`descField.toString()`), and the name of the oneof it belongs to, if any
(`descField.oneof` is an object reference in TypeScript; here the reference
is flattened to the oneof's name and resolved against the parent message). -/
structure DescField where
  number : Nat
  name : String
  oneofName : Option String
deriving Repr

/-- A oneof descriptor (`DescOneof`): its name and its member field
descriptors in declaration order (`descOneof.fields`). -/
structure DescOneof where
  name : String
  fields : List DescField
deriving Repr

/-- A message descriptor (`DescMessage`) in the parts the generator reads:
`typeName`, the field descriptor list and the oneof descriptors. -/
structure DescMessage where
  typeName : String
  fields : List DescField
  oneofs : List DescOneof
deriving Repr

/-- Resolve `descField.oneof`: the owning `DescOneof` object of a field, if
any.  In TypeScript this is a direct object reference; the flattened model
looks the named oneof up in the parent message. -/
def descFieldOneof (m : DescMessage) (f : DescField) : Option DescOneof :=
  match f.oneofName with
  | none => none
  | some n => m.oneofs.find? (fun o => o.name == n)

/-- The generator's construction-time context: the `options` record
(`oneofKindDiscriminator`, `normalLongType`) plus the deterministic external
collaborators — `interpreter.getMessageType` (keyed by message type name,
yielding the interpreted field list), `imports.typeByName` and
`imports.type` (name resolution, modelled as functions on type names). -/
structure GenContext where
  oneofKindDiscriminator : String
  normalLongType : LongType
  interp : String → List FieldInfo
  typeByName : String → String
  classTypeName : String → String

/-- One emitted constructor parameter: its identifier, whether the question
token was attached, and its type annotation.  (All parameters also carry
the fixed `public readonly` modifiers, which we do not repeat.) -/
structure Param where
  name : String
  optional : Bool
  type : TypeNode
deriving Repr

/-- The produced class declaration: its resolved name and the constructor
parameter list (the class's only member is the constructor). -/
structure ClassDecl where
  name : String
  ctorParams : List Param
deriving Repr

/-- Embedding of `createScalarTypeNode(scalarType, longType)`: the fixed
kind-to-type table, with the five 64-bit integer kinds dispatched on
`longType ?? rt.LongType.STRING`. -/
def createScalarTypeNode (scalarType : ScalarType) (longType : Option LongType) : TypeNode :=
  match scalarType with
  | .BOOL => .keyword .boolean
  | .STRING => .keyword .string
  | .BYTES => .typeRef "Uint8Array"
  | .DOUBLE | .FLOAT | .INT32 | .FIXED32 | .UINT32 | .SFIXED32 | .SINT32 =>
    .keyword .number
  | .SFIXED64 | .INT64 | .UINT64 | .FIXED64 | .SINT64 =>
    match longType.getD LongType.STRING with
    | .STRING => .keyword .string
    | .NUMBER => .keyword .number
    | .BIGINT => .keyword .bigint

/-- Embedding of `createMessageTypeNode`: a type reference resolved through
`imports.typeByName`. -/
def createMessageTypeNode (ctx : GenContext) (typeName : String) : TypeNode :=
  .typeRef (ctx.typeByName typeName)

/-- Embedding of `createEnumTypeNode`: a type reference to the enum's
resolved name (`ei[0]` resolved through `imports.typeByName`). -/
def createEnumTypeNode (ctx : GenContext) (enumTypeName : String) : TypeNode :=
  .typeRef (ctx.typeByName enumTypeName)

/-- Embedding of `createTypeNode(source, descField, fieldInfo)`: the
per-kind switch.  The `map` branch builds the key type (`BOOL` keys become
the string keyword, every other key goes through
`createScalarTypeNode(K, rt.LongType.STRING)`), computes the value type by
the inner switch that has no default (so an out-of-contract value kind
leaves it `undefined`/`none`), and wraps both in an index-signature type
literal.  The `default:` branch throws `"unknown kind " + descField`.
Afterwards a repeated field's type is wrapped in an array type. -/
def createTypeNode (ctx : GenContext) (descField : DescField) (fieldInfo : FieldInfo) :
    Except String TypeNode :=
  let base : Except String TypeNode :=
    match fieldInfo.kind with
    | .scalar T L => .ok (createScalarTypeNode T L)
    | .enum n => .ok (createEnumTypeNode ctx n)
    | .message n => .ok (createMessageTypeNode ctx n)
    | .map K V =>
      let keyType : TypeNode :=
        if K == ScalarType.BOOL then .keyword .string
        else createScalarTypeNode K (some LongType.STRING)
      let valueType : Option TypeNode :=
        match V with
        | .scalar T L => some (createScalarTypeNode T L)
        | .enum n => some (createEnumTypeNode ctx n)
        | .message n => some (createMessageTypeNode ctx n)
        | .unknownValueKind _ => none
      .ok (.typeLiteral [.indexSig "key" keyType valueType])
    | .unknownFieldKind _ => .error ("unknown kind " ++ descField.name)
  match base with
  | .error e => .error e
  | .ok t => .ok (if fieldInfo.«repeat» then TypeNode.array t else t)

/-- Embedding of `oneofInfo(descOneof)`: pick the oneof's first descriptor
field, find the interpreter field with the same number (asserted present),
and read its `oneof` local name (asserted present).  Returns the
interpreter's field list for the parent and the oneof local name.  An empty
`descOneof.fields` crashes in JavaScript (reading `.number` of
`undefined`), embedded as an error as well. -/
def oneofInfo (ctx : GenContext) (parent : DescMessage) (descOneof : DescOneof) :
    Except String (List FieldInfo × String) :=
  let interpreterType := ctx.interp parent.typeName
  match descOneof.fields.head? with
  | none => .error "TypeError: cannot read number of undefined"
  | some sampleField =>
    match interpreterType.find? (fun fi => fi.no == sampleField.number) with
    | none => .error "assertion failed"
    | some sampleFieldInfo =>
      match sampleFieldInfo.oneof with
      | none => .error "assertion failed"
      | some oneofName => .ok (interpreterType, oneofName)

/-- One iteration of the member loop of `createOneofADTTypeNode`: the
discriminator property (`{ oneofKind: 'localName' }`), the asserted
descriptor lookup by field number, the member's resolved type, and the
two-property type literal for this case. -/
def oneofMemberCase (ctx : GenContext) (parent : DescMessage) (fieldInfo : FieldInfo) :
    Except String TypeNode :=
  let kindProperty : TypeNode :=
    .propSig ctx.oneofKindDiscriminator false (.litString fieldInfo.localName)
  match parent.fields.find? (fun fd => fd.number == fieldInfo.no) with
  | none => .error "assertion failed"
  | some descField =>
    match createTypeNode ctx descField fieldInfo with
    | .error e => .error e
    | .ok typeNode =>
      .ok (.typeLiteral [kindProperty, .propSig fieldInfo.localName fieldInfo.opt typeNode])

/-- The loop of `createOneofADTTypeNode` over the member field infos,
accumulating the member cases in order. -/
def oneofCasesLoop (ctx : GenContext) (parent : DescMessage) :
    List FieldInfo → Except String (List TypeNode)
  | [] => .ok []
  | fi :: rest =>
    match oneofMemberCase ctx parent fi with
    | .error e => .error e
    | .ok c =>
      match oneofCasesLoop ctx parent rest with
      | .error e => .error e
      | .ok cs => .ok (c :: cs)

/-- The terminal no-selection case `{ oneofKind: undefined; }`. -/
def emptyOneofCase (ctx : GenContext) : TypeNode :=
  .typeLiteral [.propSig ctx.oneofKindDiscriminator false (.keyword .undefined)]

/-- Embedding of `createOneofADTTypeNode(source, descOneof)`: resolve the
group via `oneofInfo`, filter the interpreter fields that belong to it,
build one case per member, append the empty case last, and return the
union of all cases. -/
def createOneofADTTypeNode (ctx : GenContext) (parent : DescMessage) (descOneof : DescOneof) :
    Except String TypeNode :=
  match oneofInfo ctx parent descOneof with
  | .error e => .error e
  | .ok (interpreterType, oneofLocalName) =>
    let memberFieldInfos := interpreterType.filter (fun fi => fi.oneof == some oneofLocalName)
    match oneofCasesLoop ctx parent memberFieldInfos with
    | .error e => .error e
    | .ok oneofCases => .ok (.union (oneofCases ++ [emptyOneofCase ctx]))

/-- One iteration of the field loop of `generateMessageClass`: the asserted
descriptor lookup by number; then, when both the interpreter metadata and
the descriptor place the field in a oneof, either skip it (group already in
`processedOneofs`) or emit the single group parameter (group local name,
no question token, the ADT union type) and record the group; otherwise emit
a regular parameter (field local name, question token per `fieldInfo.opt`,
the field's resolved type).  Returns the optionally emitted parameter and
the updated processed-group list. -/
def fieldStep (ctx : GenContext) (m : DescMessage) (fieldInfo : FieldInfo)
    (processedOneofs : List String) : Except String (Option Param × List String) :=
  match m.fields.find? (fun descField => descField.number == fieldInfo.no) with
  | none => .error "assertion failed"
  | some descField =>
    match fieldInfo.oneof, descFieldOneof m descField with
    | some oneofKey, some descOneof =>
      if processedOneofs.contains oneofKey then
        .ok (none, processedOneofs)
      else
        match oneofInfo ctx m descOneof with
        | .error e => .error e
        | .ok (_, oneofLocalName) =>
          match createOneofADTTypeNode ctx m descOneof with
          | .error e => .error e
          | .ok oneofType =>
            .ok (some { name := oneofLocalName, optional := false, type := oneofType },
                 processedOneofs ++ [oneofKey])
    | _, _ =>
      match createTypeNode ctx descField fieldInfo with
      | .error e => .error e
      | .ok t =>
        .ok (some { name := fieldInfo.localName, optional := fieldInfo.opt, type := t },
             processedOneofs)

/-- The field loop of `generateMessageClass`, accumulating constructor
parameters in field order while threading the `processedOneofs` list. -/
def genParams (ctx : GenContext) (m : DescMessage) :
    List FieldInfo → List String → Except String (List Param)
  | [], _ => .ok []
  | fieldInfo :: rest, processedOneofs =>
    match fieldStep ctx m fieldInfo processedOneofs with
    | .error e => .error e
    | .ok (none, processed2) => genParams ctx m rest processed2
    | .ok (some p, processed2) =>
      match genParams ctx m rest processed2 with
      | .error e => .error e
      | .ok ps => .ok (p :: ps)

/-- Embedding of `generateMessageClass(source, descMessage)`: iterate the
interpreter's fields for the message with a fresh (per-invocation, local)
`processedOneofs` list, build the constructor-only class declaration under
the name resolved by `imports.type`, append it to the source file's
statements, and return it. -/
def generateMessageClass (ctx : GenContext) (src : List ClassDecl) (m : DescMessage) :
    Except String (List ClassDecl × ClassDecl) :=
  match genParams ctx m (ctx.interp m.typeName) [] with
  | .error e => .error e
  | .ok ctorParams =>
    let statement : ClassDecl := { name := ctx.classTypeName m.typeName, ctorParams := ctorParams }
    .ok (src ++ [statement], statement)

/-- The five width-64 integer scalar kinds. -/
def ScalarType.isLong64 : ScalarType → Bool
  | .SFIXED64 | .INT64 | .UINT64 | .FIXED64 | .SINT64 => true
  | _ => false

/-- Modelled from the spec: the Interpreter (code of this repository that is
not under `src/`) supplies each width-64 field's `fieldInfo.L`, applying
the externally configured default LongRepresentation (`normalLongType`)
uniformly "unless the field itself overrides it". -/
def interpreterLongType (fieldOverride : Option LongType) (normalLongType : LongType) : LongType :=
  fieldOverride.getD normalLongType

/-- The spec's three-way LongRepresentation switch: textual-decimal-string
yields the string type, native-number the number type,
arbitrary-precision-integer the bigint type. -/
def longKeyword : LongType → TypeNode
  | .STRING => .keyword .string
  | .NUMBER => .keyword .number
  | .BIGINT => .keyword .bigint

/-- Sample configuration whose default LongRepresentation is native-number,
used to exercise configuration-dependence claims on concrete inputs. -/
def ctxNum : GenContext :=
  { oneofKindDiscriminator := "oneofKind"
    normalLongType := .NUMBER
    interp := fun _ => []
    typeByName := fun n => n
    classTypeName := fun n => n ++ "Ctor" }

/-- A sample field descriptor. -/
def descF0 : DescField := { number := 9, name := "area", oneofName := none }

/-- Field descriptors of the sample message `Shape` (spec §8 scenario):
`width` int32, `area` uint64, and a oneof `selector` with members `label`
(string) and `anchor` (message `Point`). -/
def shapeDescFields : List DescField :=
  [ { number := 1, name := "width", oneofName := none },
    { number := 2, name := "area", oneofName := none },
    { number := 3, name := "label", oneofName := some "selector" },
    { number := 4, name := "anchor", oneofName := some "selector" } ]

/-- The `selector` oneof descriptor of the sample message. -/
def shapeOneof : DescOneof :=
  { name := "selector"
    fields := [ { number := 3, name := "label", oneofName := some "selector" },
                { number := 4, name := "anchor", oneofName := some "selector" } ] }

/-- The sample message descriptor. -/
def shapeMsg : DescMessage :=
  { typeName := "Shape", fields := shapeDescFields, oneofs := [shapeOneof] }

/-- The interpreter's field list for the sample message. -/
def shapeFieldInfos : List FieldInfo :=
  [ { no := 1, localName := "width", kind := .scalar .INT32 none,
      oneof := none, «repeat» := false, opt := false },
    { no := 2, localName := "area", kind := .scalar .UINT64 (some .STRING),
      oneof := none, «repeat» := false, opt := false },
    { no := 3, localName := "label", kind := .scalar .STRING none,
      oneof := some "selector", «repeat» := false, opt := false },
    { no := 4, localName := "anchor", kind := .message "Point",
      oneof := some "selector", «repeat» := false, opt := false } ]

/-- A generator context wired to the sample message. -/
def shapeCtx : GenContext :=
  { oneofKindDiscriminator := "kind"
    normalLongType := .STRING
    interp := fun n => if n == "Shape" then shapeFieldInfos else []
    typeByName := fun n => n
    classTypeName := fun n => n ++ "Ctor" }

/-- The classification used by the Class Shape Builder's branch: the group
key under which a field is tracked when both the interpreter metadata and
the descriptor place it in a oneof, and `none` when the field is emitted as
a regular parameter.  (A field whose descriptor lookup fails classifies as
`none`; generation aborts on it before emitting anything.) -/
def activeOneofKey (m : DescMessage) (fi : FieldInfo) : Option String :=
  match m.fields.find? (fun d => d.number == fi.no) with
  | none => none
  | some df =>
    match fi.oneof, descFieldOneof m df with
    | some g, some _ => some g
    | _, _ => none

/-- Spec-side counting of emitted constructor parameters (§4.4 of the
spec, stated in its words): iterate fields in order; a field of an
already-processed group is skipped, a field of an unprocessed group emits
one parameter and marks the group processed, any other field emits one
parameter. -/
def paramCountSpec (key : FieldInfo → Option String) :
    List FieldInfo → List String → Nat
  | [], _ => 0
  | fi :: rest, processed =>
    match key fi with
    | none => paramCountSpec key rest processed + 1
    | some g =>
      if processed.contains g then paramCountSpec key rest processed
      else paramCountSpec key rest (processed ++ [g]) + 1

/-- An interpreter field with no descriptor counterpart (its number matches
no schema field): the reverse-mapping disagreement of claim C2. -/
def ghostFieldInfo : FieldInfo :=
  { no := 7, localName := "ghost", kind := .scalar .INT32 none,
    oneof := none, «repeat» := false, opt := false }

/-- A message whose descriptor has no fields at all, while the interpreter
reports `ghostFieldInfo` for it. -/
def badMsg1 : DescMessage := { typeName := "Bad1", fields := [], oneofs := [] }

/-- Descriptor fields of the message with an inconsistent oneof: both
fields belong to group `grp` according to the descriptor. -/
def bad2DescX : DescField := { number := 5, name := "x", oneofName := some "grp" }

/-- Second descriptor field of the inconsistent-oneof message. -/
def bad2DescY : DescField := { number := 6, name := "y", oneofName := some "grp" }

/-- The `grp` oneof descriptor, whose sample (first) member is `x`. -/
def bad2Oneof : DescOneof := { name := "grp", fields := [bad2DescX, bad2DescY] }

/-- A message whose descriptor places `x` and `y` in oneof `grp`. -/
def badMsg2 : DescMessage :=
  { typeName := "Bad2", fields := [bad2DescX, bad2DescY], oneofs := [bad2Oneof] }

/-- Interpreter metadata for `x` that disagrees with the descriptor: it
carries no group name, so `oneofInfo`'s assertion on the sample member
fails. -/
def bad2InfoX : FieldInfo :=
  { no := 5, localName := "x", kind := .scalar .STRING none,
    oneof := none, «repeat» := false, opt := false }

/-- Interpreter metadata for `y`, which does claim membership in `grp`. -/
def bad2InfoY : FieldInfo :=
  { no := 6, localName := "y", kind := .scalar .STRING none,
    oneof := some "grp", «repeat» := false, opt := false }

/-- A context whose interpreter serves the two inconsistent messages. -/
def badCtx : GenContext :=
  { oneofKindDiscriminator := "oneofKind"
    normalLongType := .STRING
    interp := fun n =>
      if n == "Bad1" then [ghostFieldInfo]
      else if n == "Bad2" then [bad2InfoX, bad2InfoY]
      else []
    typeByName := fun n => n
    classTypeName := fun n => n }

/-- A field whose runtime kind lies outside the switch's closed set, for
exercising the unknown-kind error path on a concrete input. -/
def alienFieldInfo : FieldInfo :=
  { no := 3, localName := "alien", kind := .unknownFieldKind "mystery",
    oneof := none, «repeat» := false, opt := false }

/-- A message carrying `alienFieldInfo`'s descriptor counterpart. -/
def alienMsg : DescMessage :=
  { typeName := "Alien",
    fields := [ { number := 3, name := "alien", oneofName := none } ],
    oneofs := [] }

/-- A context whose interpreter serves `alienMsg`. -/
def alienCtx : GenContext :=
  { oneofKindDiscriminator := "oneofKind"
    normalLongType := .STRING
    interp := fun n => if n == "Alien" then [alienFieldInfo] else []
    typeByName := fun n => n
    classTypeName := fun n => n }

/-- C9: the scalar-to-type translation is total over the scalar kind
enumeration: for every `ScalarType` and every possibly-absent `LongType`,
`createScalarTypeNode` returns one of the five concrete type nodes — no
enumeration value falls through the switch to an undefined result. -/
theorem c9_scalar_table_total (T : ScalarType) (L : Option LongType) :
    createScalarTypeNode T L = .keyword .boolean ∨
    createScalarTypeNode T L = .keyword .string ∨
    createScalarTypeNode T L = .keyword .number ∨
    createScalarTypeNode T L = .keyword .bigint ∨
    createScalarTypeNode T L = .typeRef "Uint8Array" := by
  rcases L with _ | lt <;> cases T <;>
    simp [createScalarTypeNode] <;> cases lt <;> simp [createScalarTypeNode]

/-- C8: for every scalar kind other than the width-64 integer kinds, the
resolved type is fixed: it does not depend on the LongRepresentation value
at all, hence is identical across any two runs differing only in the
LongRepresentation configuration. -/
theorem c8_nonlong_scalar_independent (T : ScalarType) (hT : T.isLong64 = false)
    (L₁ L₂ : Option LongType) :
    createScalarTypeNode T L₁ = createScalarTypeNode T L₂ := by
  cases T <;> first
    | rfl
    | simp [ScalarType.isLong64] at hT

/-- Closed witness for `c8_nonlong_scalar_independent` at `BOOL` with the
two configurations `native-number` and absent. -/
theorem c8_nonlong_scalar_independent_witness :
    ScalarType.BOOL.isLong64 = false ∧
    createScalarTypeNode .BOOL (some .NUMBER) = createScalarTypeNode .BOOL none :=
  ⟨rfl, c8_nonlong_scalar_independent .BOOL rfl (some .NUMBER) none⟩

/-- C10: inside a map field, a value whose kind lies outside
{scalar, enum, message} does not trigger the fatal unknown-kind path that
applies to top-level fields: the inner value-kind switch has no default
branch, so the index-signature type is built with an absent value type and
the field resolves successfully instead of aborting. -/
theorem c10_map_unknown_value_kind_tolerated (ctx : GenContext) (df : DescField)
    (n : Nat) (nm : String) (K : ScalarType) (tag : String)
    (oo : Option String) (opt : Bool) :
    createTypeNode ctx df
      { no := n, localName := nm, kind := .map K (.unknownValueKind tag),
        oneof := oo, «repeat» := false, opt := opt }
      = .ok (.typeLiteral [.indexSig "key"
          (if K == ScalarType.BOOL then .keyword .string
           else createScalarTypeNode K (some LongType.STRING)) none]) := rfl

/-- C4: for every map field the key type ignores the configured default
LongRepresentation (the context is universally quantified): a boolean key
resolves to the string keyword, every other key is resolved through the
`LongType.STRING` (textual-decimal-string) path, and in particular any
width-64 integer key resolves to the string keyword. -/
theorem c4_map_key_forced_textual (ctx : GenContext) (df : DescField)
    (n : Nat) (nm : String) (K : ScalarType) (V : MapValueKind)
    (oo : Option String) (opt : Bool) :
    ∃ kt v,
      createTypeNode ctx df
        { no := n, localName := nm, kind := .map K V,
          oneof := oo, «repeat» := false, opt := opt }
        = .ok (.typeLiteral [.indexSig "key" kt v]) ∧
      kt = (if K == ScalarType.BOOL then TypeNode.keyword .string
            else createScalarTypeNode K (some LongType.STRING)) ∧
      (K = ScalarType.BOOL → kt = .keyword .string) ∧
      (K.isLong64 = true → kt = .keyword .string) := by
  cases V <;>
    exact ⟨_, _, rfl, rfl,
      fun h => by subst h; rfl,
      fun h => by cases K <;> first
        | rfl
        | simp [ScalarType.isLong64] at h⟩

/-- Closed witness for `c4_map_key_forced_textual`: a `uint64`-keyed map
under the native-number default configuration still gets a string key. -/
theorem c4_map_key_forced_textual_witness :
    ∃ kt v,
      createTypeNode ctxNum descF0
        { no := 9, localName := "counts", kind := .map .UINT64 (.scalar .INT32 none),
          oneof := none, «repeat» := false, opt := false }
        = .ok (.typeLiteral [.indexSig "key" kt v]) ∧
      kt = (if ScalarType.UINT64 == ScalarType.BOOL then TypeNode.keyword .string
            else createScalarTypeNode .UINT64 (some LongType.STRING)) ∧
      (ScalarType.UINT64 = ScalarType.BOOL → kt = .keyword .string) ∧
      (ScalarType.UINT64.isLong64 = true → kt = .keyword .string) :=
  c4_map_key_forced_textual ctxNum descF0 9 "counts" .UINT64 (.scalar .INT32 none) none false

/-- C1: for a width-64 scalar field (outside a map key position, not
repeated), the resolved type is selected by the three-way switch on the
LongRepresentation policy (`longKeyword`), where the policy applied is the
field's own override when present and the externally configured
`normalLongType` otherwise (`interpreterLongType`, modelled from the spec
for the out-of-scope Interpreter). -/
theorem c1_width64_long_policy (ctx : GenContext) (df : DescField)
    (n : Nat) (nm : String) (T : ScalarType) (hT : T.isLong64 = true)
    (ov : Option LongType) :
    createTypeNode ctx df
      { no := n, localName := nm,
        kind := .scalar T (some (interpreterLongType ov ctx.normalLongType)),
        oneof := none, «repeat» := false, opt := false }
      = .ok (longKeyword (interpreterLongType ov ctx.normalLongType)) ∧
    (ov = none → interpreterLongType ov ctx.normalLongType = ctx.normalLongType) ∧
    (∀ x, ov = some x → interpreterLongType ov ctx.normalLongType = x) := by
  refine ⟨?_, ?_, ?_⟩
  · generalize interpreterLongType ov ctx.normalLongType = L
    cases T <;> first
      | (cases L <;> rfl)
      | simp [ScalarType.isLong64] at hT
  · intro h; subst h; rfl
  · intro x h; subst h; rfl

/-- Closed witness for `c1_width64_long_policy`: an `int64` field with no
override under the native-number default resolves to the number keyword. -/
theorem c1_width64_long_policy_witness :
    ScalarType.INT64.isLong64 = true ∧
    (createTypeNode ctxNum descF0
       { no := 9, localName := "area",
         kind := .scalar .INT64 (some (interpreterLongType none ctxNum.normalLongType)),
         oneof := none, «repeat» := false, opt := false }
       = .ok (longKeyword (interpreterLongType none ctxNum.normalLongType)) ∧
     (none = (none : Option LongType) →
        interpreterLongType none ctxNum.normalLongType = ctxNum.normalLongType) ∧
     (∀ x, (none : Option LongType) = some x →
        interpreterLongType none ctxNum.normalLongType = x)) :=
  ⟨rfl, c1_width64_long_policy ctxNum descF0 9 "area" .INT64 rfl none⟩

/-- Helper: a successful member-case loop relates inputs and outputs
pointwise (in order). -/
theorem oneofCasesLoop_ok_forall2 (ctx : GenContext) (parent : DescMessage) :
    ∀ (l : List FieldInfo) (cs : List TypeNode),
      oneofCasesLoop ctx parent l = .ok cs →
      List.Forall₂ (fun fi c => oneofMemberCase ctx parent fi = .ok c) l cs := by
  intro l
  induction l with
  | nil =>
    intro cs h
    simp only [oneofCasesLoop] at h
    cases h
    exact .nil
  | cons fi rest ih =>
    intro cs h
    simp only [oneofCasesLoop] at h
    cases h1 : oneofMemberCase ctx parent fi with
    | error e => rw [h1] at h; cases h
    | ok c =>
      rw [h1] at h
      cases h2 : oneofCasesLoop ctx parent rest with
      | error e => rw [h2] at h; cases h
      | ok cs2 =>
        rw [h2] at h
        cases h
        exact .cons h1 (ih cs2 h2)

/-- Helper: the shape of one successful oneof member case — a type literal
of exactly the discriminator property (typed as the member's local-name
string literal) and the value property (the member's local name, question
token per its `opt` flag, its resolved type). -/
theorem oneofMemberCase_ok_shape (ctx : GenContext) (parent : DescMessage)
    (fi : FieldInfo) (c : TypeNode) (h : oneofMemberCase ctx parent fi = .ok c) :
    ∃ df tn,
      parent.fields.find? (fun fd => fd.number == fi.no) = some df ∧
      createTypeNode ctx df fi = .ok tn ∧
      c = .typeLiteral
            [.propSig ctx.oneofKindDiscriminator false (.litString fi.localName),
             .propSig fi.localName fi.opt tn] := by
  unfold oneofMemberCase at h
  cases hf : parent.fields.find? (fun fd => fd.number == fi.no) with
  | none => rw [hf] at h; cases h
  | some df =>
    rw [hf] at h
    dsimp only at h
    cases ht : createTypeNode ctx df fi with
    | error e => rw [ht] at h; cases h
    | ok tn =>
      rw [ht] at h
      cases h
      exact ⟨df, tn, rfl, ht, rfl⟩

/-- C3: a successfully synthesized oneof union consists of one case per
member field (the interpreter fields carrying the group's local name, in
declaration order) followed by exactly one terminal empty case, so N
members give N+1 variants; each member case is a record of exactly the
discriminator property (typed as the string literal of the member's local
name) and a value property bearing the member's local name, its resolved
base type, and a question token exactly per its `opt` flag; the terminal
case's sole property is the discriminator typed as the undefined keyword. -/
theorem c3_oneof_union_shape (ctx : GenContext) (parent : DescMessage)
    (descOneof : DescOneof) (flds : List FieldInfo) (gname : String) (u : TypeNode)
    (hinfo : oneofInfo ctx parent descOneof = .ok (flds, gname))
    (hok : createOneofADTTypeNode ctx parent descOneof = .ok u) :
    ∃ cs,
      u = .union (cs ++ [emptyOneofCase ctx]) ∧
      (cs ++ [emptyOneofCase ctx]).length
        = (flds.filter (fun fi => fi.oneof == some gname)).length + 1 ∧
      List.Forall₂
        (fun fi c => ∃ df tn,
          parent.fields.find? (fun fd => fd.number == fi.no) = some df ∧
          createTypeNode ctx df fi = .ok tn ∧
          c = TypeNode.typeLiteral
                [.propSig ctx.oneofKindDiscriminator false (.litString fi.localName),
                 .propSig fi.localName fi.opt tn])
        (flds.filter (fun fi => fi.oneof == some gname)) cs ∧
      emptyOneofCase ctx
        = .typeLiteral [.propSig ctx.oneofKindDiscriminator false (.keyword .undefined)] := by
  unfold createOneofADTTypeNode at hok
  rw [hinfo] at hok
  dsimp only at hok
  cases hloop : oneofCasesLoop ctx parent (flds.filter (fun fi => fi.oneof == some gname)) with
  | error e => rw [hloop] at hok; cases hok
  | ok cs =>
    rw [hloop] at hok
    cases hok
    have hrel := oneofCasesLoop_ok_forall2 ctx parent _ cs hloop
    refine ⟨cs, rfl, ?_, ?_, rfl⟩
    · simp [hrel.length_eq]
    · exact hrel.imp (fun fi c hc => oneofMemberCase_ok_shape ctx parent fi c hc)

/-- Closed witness for `c3_oneof_union_shape` on the sample message's
two-member `selector` group: the union has 2 + 1 cases. -/
theorem c3_oneof_union_shape_witness :
    ∃ u cs,
      createOneofADTTypeNode shapeCtx shapeMsg shapeOneof = .ok u ∧
      u = .union (cs ++ [emptyOneofCase shapeCtx]) ∧
      (cs ++ [emptyOneofCase shapeCtx]).length
        = (shapeFieldInfos.filter (fun fi => fi.oneof == some "selector")).length + 1 := by
  obtain ⟨cs, h1, h2, h3, h4⟩ :=
    c3_oneof_union_shape shapeCtx shapeMsg shapeOneof shapeFieldInfos "selector" _ rfl rfl
  exact ⟨_, cs, rfl, h1, h2⟩

/-- C6: re-invoking class generation for the same message with the same
context on the file state left by the first invocation yields the
structurally identical class declaration (and appends it again); the
processed-groups tracking is per-invocation, so nothing of the first run
leaks into the second. -/
theorem c6_reinvocation_identical (ctx : GenContext) (m : DescMessage)
    (s s2 : List ClassDecl) (d : ClassDecl)
    (h : generateMessageClass ctx s m = .ok (s2, d)) :
    generateMessageClass ctx s2 m = .ok (s2 ++ [d], d) := by
  unfold generateMessageClass at h ⊢
  cases hg : genParams ctx m (ctx.interp m.typeName) [] with
  | error e => rw [hg] at h; cases h
  | ok ps =>
    rw [hg] at h
    cases h
    rfl

/-- Closed witness for `c6_reinvocation_identical` on the sample message. -/
theorem c6_reinvocation_identical_witness :
    ∃ s2 d, generateMessageClass shapeCtx [] shapeMsg = .ok (s2, d) ∧
      generateMessageClass shapeCtx s2 shapeMsg = .ok (s2 ++ [d], d) :=
  ⟨_, _, rfl, c6_reinvocation_identical shapeCtx shapeMsg [] _ _ rfl⟩

/-- Helper: a field whose number matches no descriptor makes the loop body
fail its assertion regardless of the processed-group state. -/
theorem fieldStep_error_of_find_none (ctx : GenContext) (m : DescMessage) (fi : FieldInfo)
    (hf : m.fields.find? (fun d => d.number == fi.no) = none) (p : List String) :
    fieldStep ctx m fi p = .error "assertion failed" := by
  unfold fieldStep
  rw [hf]

/-- Helper: a non-oneof field of unknown kind makes the loop body fail
regardless of the processed-group state. -/
theorem fieldStep_error_of_unknown_kind (ctx : GenContext) (m : DescMessage)
    (fi : FieldInfo) (tag : String)
    (hk : fi.kind = .unknownFieldKind tag) (ho : fi.oneof = none) (p : List String) :
    ∃ e, fieldStep ctx m fi p = .error e := by
  unfold fieldStep
  cases hf : m.fields.find? (fun d => d.number == fi.no) with
  | none => exact ⟨_, rfl⟩
  | some df =>
    dsimp only
    rw [ho]
    have hct : createTypeNode ctx df fi = .error ("unknown kind " ++ df.name) := by
      unfold createTypeNode
      rw [hk]
    cases hdo : descFieldOneof m df with
    | none => dsimp only; rw [hct]; exact ⟨_, rfl⟩
    | some od => dsimp only; rw [hct]; exact ⟨_, rfl⟩

/-- Helper: if one field's loop body fails for every processed-group state,
the whole parameter loop fails whenever that field is in the list. -/
theorem genParams_error_of_bad_mem (ctx : GenContext) (m : DescMessage) (fi : FieldInfo)
    (hbad : ∀ p, ∃ e, fieldStep ctx m fi p = .error e) :
    ∀ (l : List FieldInfo) (p : List String), fi ∈ l →
      ∃ e, genParams ctx m l p = .error e := by
  intro l
  induction l with
  | nil => intro p h; exact absurd h (List.not_mem_nil fi)
  | cons a rest ih =>
    intro p hmem
    rcases List.mem_cons.mp hmem with h | h
    · subst h
      obtain ⟨e, he⟩ := hbad p
      exact ⟨e, by simp only [genParams, he]⟩
    · cases hs : fieldStep ctx m a p with
      | error e => exact ⟨e, by simp only [genParams, hs]⟩
      | ok y =>
        obtain ⟨x, p2⟩ := y
        obtain ⟨e, he⟩ := ih p2 h
        cases x with
        | none => exact ⟨e, by simp only [genParams, hs, he]⟩
        | some q => exact ⟨e, by simp only [genParams, hs, he]⟩

/-- C7: a field whose kind lies outside the closed
{scalar, enum, message, map} set makes the Field Type Resolver fail with an
error that names the offending field, and the error propagates fatally:
class generation for any message whose interpreted field list contains such
a (non-oneof) field yields an error, never a declaration. -/
theorem c7_unknown_field_kind_fatal (ctx : GenContext) (fi : FieldInfo) (tag : String)
    (hk : fi.kind = .unknownFieldKind tag) :
    (∀ df, createTypeNode ctx df fi = .error ("unknown kind " ++ df.name)) ∧
    (∀ (src : List ClassDecl) (m : DescMessage),
      fi.oneof = none → fi ∈ ctx.interp m.typeName →
      ∃ e, generateMessageClass ctx src m = .error e) := by
  refine ⟨fun df => by unfold createTypeNode; rw [hk], ?_⟩
  intro src m ho hmem
  obtain ⟨e, he⟩ :=
    genParams_error_of_bad_mem ctx m fi
      (fieldStep_error_of_unknown_kind ctx m fi tag hk ho)
      (ctx.interp m.typeName) [] hmem
  exact ⟨e, by simp only [generateMessageClass, he]⟩

/-- Closed witness for `c7_unknown_field_kind_fatal` on a concrete message
with one alien-kind field. -/
theorem c7_unknown_field_kind_fatal_witness :
    createTypeNode alienCtx { number := 3, name := "alien", oneofName := none } alienFieldInfo
      = .error ("unknown kind " ++ "alien") ∧
    ∃ e, generateMessageClass alienCtx [] alienMsg = .error e :=
  ⟨(c7_unknown_field_kind_fatal alienCtx alienFieldInfo "mystery" rfl).1
      { number := 3, name := "alien", oneofName := none },
   (c7_unknown_field_kind_fatal alienCtx alienFieldInfo "mystery" rfl).2 [] alienMsg rfl
      (by simp [alienCtx, alienMsg])⟩

/-- Helper: a successful loop body leaves the processed-group list
unchanged or appends exactly the field's own group key. -/
theorem fieldStep_processed_extends (ctx : GenContext) (m : DescMessage) (fi : FieldInfo)
    (p : List String) (x : Option Param) (p2 : List String)
    (hs : fieldStep ctx m fi p = .ok (x, p2)) :
    p2 = p ∨ ∃ g, fi.oneof = some g ∧ p2 = p ++ [g] := by
  unfold fieldStep at hs
  cases hf : m.fields.find? (fun d => d.number == fi.no) with
  | none => rw [hf] at hs; cases hs
  | some df =>
    rw [hf] at hs
    dsimp only at hs
    cases ho : fi.oneof with
    | none =>
      rw [ho] at hs
      cases hdo : descFieldOneof m df with
      | none =>
        rw [hdo] at hs; dsimp only at hs
        cases hct : createTypeNode ctx df fi with
        | error e => rw [hct] at hs; cases hs
        | ok t => rw [hct] at hs; cases hs; exact .inl rfl
      | some od =>
        rw [hdo] at hs; dsimp only at hs
        cases hct : createTypeNode ctx df fi with
        | error e => rw [hct] at hs; cases hs
        | ok t => rw [hct] at hs; cases hs; exact .inl rfl
    | some g =>
      rw [ho] at hs
      cases hdo : descFieldOneof m df with
      | none =>
        rw [hdo] at hs; dsimp only at hs
        cases hct : createTypeNode ctx df fi with
        | error e => rw [hct] at hs; cases hs
        | ok t => rw [hct] at hs; cases hs; exact .inl rfl
      | some od =>
        rw [hdo] at hs; dsimp only at hs
        by_cases hc : p.contains g = true
        · rw [if_pos hc] at hs; cases hs; exact .inl rfl
        · rw [if_neg hc] at hs
          cases hi : oneofInfo ctx m od with
          | error e => rw [hi] at hs; cases hs
          | ok y =>
            obtain ⟨fl, gname⟩ := y
            rw [hi] at hs; dsimp only at hs
            cases ha : createOneofADTTypeNode ctx m od with
            | error e => rw [ha] at hs; cases hs
            | ok ut => rw [ha] at hs; cases hs; exact .inr ⟨g, rfl, rfl⟩

/-- Helper: when the field is an unprocessed oneof member and the group
lookup fails, the loop body fails with that error. -/
theorem fieldStep_error_of_oneofInfo_error (ctx : GenContext) (m : DescMessage)
    (fi : FieldInfo) (g : String) (df : DescField) (od : DescOneof) (e : String)
    (ho : fi.oneof = some g)
    (hf : m.fields.find? (fun d => d.number == fi.no) = some df)
    (hdo : descFieldOneof m df = some od)
    (p : List String) (hc : p.contains g = false)
    (he : oneofInfo ctx m od = .error e) :
    fieldStep ctx m fi p = .error e := by
  unfold fieldStep
  rw [hf]
  dsimp only
  rw [ho, hdo]
  dsimp only
  rw [if_neg (by rw [hc]; exact Bool.false_ne_true)]
  rw [he]

/-- Helper: the group-resolution helper fails when the sample member's
interpreter metadata is missing or carries no group name. -/
theorem oneofInfo_error_of_sample_disagreement (ctx : GenContext) (m : DescMessage)
    (od : DescOneof) (sf : DescField)
    (hsf : od.fields.head? = some sf)
    (hdis : ((ctx.interp m.typeName).find? (fun f2 => f2.no == sf.number) = none) ∨
            (∃ sfi, (ctx.interp m.typeName).find? (fun f2 => f2.no == sf.number) = some sfi ∧
                    sfi.oneof = none)) :
    ∃ e, oneofInfo ctx m od = .error e := by
  unfold oneofInfo
  rw [hsf]
  dsimp only
  rcases hdis with h | ⟨sfi, h1, h2⟩
  · rw [h]; exact ⟨_, rfl⟩
  · rw [h1]; dsimp only; rw [h2]; exact ⟨_, rfl⟩

/-- Helper: if a oneof member field whose group lookup fails occurs in the
list, and no earlier field claims the same group (so the member is not
skipped), the parameter loop fails. -/
theorem genParams_error_prefix (ctx : GenContext) (m : DescMessage) (g : String)
    (fi : FieldInfo) (df : DescField) (od : DescOneof)
    (ho : fi.oneof = some g)
    (hf : m.fields.find? (fun d => d.number == fi.no) = some df)
    (hdo : descFieldOneof m df = some od)
    (hbad : ∃ e0, oneofInfo ctx m od = .error e0) :
    ∀ (l1 l2 : List FieldInfo) (p : List String),
      (∀ fj ∈ l1, fj.oneof ≠ some g) → p.contains g = false →
      ∃ e, genParams ctx m (l1 ++ fi :: l2) p = .error e := by
  intro l1
  induction l1 with
  | nil =>
    intro l2 p _ hc
    obtain ⟨e0, he0⟩ := hbad
    have hstep := fieldStep_error_of_oneofInfo_error ctx m fi g df od e0 ho hf hdo p hc he0
    exact ⟨e0, by simp only [List.nil_append, genParams, hstep]⟩
  | cons a l1' ih =>
    intro l2 p hne hc
    have hane : a.oneof ≠ some g := hne a (List.mem_cons_self a l1')
    cases hs : fieldStep ctx m a p with
    | error e => exact ⟨e, by simp only [List.cons_append, genParams, hs]⟩
    | ok y =>
      obtain ⟨x, p2⟩ := y
      have hp2 : p2.contains g = false := by
        rcases fieldStep_processed_extends ctx m a p x p2 hs with h | ⟨g2, hg2, h⟩
        · rw [h]; exact hc
        · subst h
          have hgne : g ≠ g2 := fun hq => hane (by rw [hg2, hq])
          simp at hc ⊢
          exact ⟨hc, hgne⟩
      obtain ⟨e, he⟩ := ih l2 p2 (fun fj hj => hne fj (List.mem_cons_of_mem a hj)) hp2
      cases x with
      | none => exact ⟨e, by simp only [List.cons_append, genParams, hs, List.append_eq, he]⟩
      | some q => exact ⟨e, by simp only [List.cons_append, genParams, hs, List.append_eq, he]⟩

/-- C2: when the field metadata and the schema descriptor disagree —
an interpreter field whose number has no descriptor counterpart, or a oneof
whose sample member's metadata is missing or carries no group name while a
later member is about to emit the group — class generation for the message
fails with an error: no declaration is produced and nothing is appended to
the source file. -/
theorem c2_metadata_disagreement_fatal (ctx : GenContext) :
    (∀ (src : List ClassDecl) (m : DescMessage) (fi : FieldInfo),
      fi ∈ ctx.interp m.typeName →
      m.fields.find? (fun d => d.number == fi.no) = none →
      ∃ e, generateMessageClass ctx src m = .error e) ∧
    (∀ (src : List ClassDecl) (m : DescMessage) (l1 l2 : List FieldInfo)
       (fi : FieldInfo) (g : String) (df : DescField) (od : DescOneof),
      ctx.interp m.typeName = l1 ++ fi :: l2 →
      (∀ fj ∈ l1, fj.oneof ≠ some g) →
      fi.oneof = some g →
      m.fields.find? (fun d => d.number == fi.no) = some df →
      descFieldOneof m df = some od →
      (∃ sf, od.fields.head? = some sf ∧
        (((ctx.interp m.typeName).find? (fun f2 => f2.no == sf.number) = none) ∨
         (∃ sfi, (ctx.interp m.typeName).find? (fun f2 => f2.no == sf.number) = some sfi ∧
                 sfi.oneof = none))) →
      ∃ e, generateMessageClass ctx src m = .error e) := by
  constructor
  · intro src m fi hmem hf
    obtain ⟨e, he⟩ :=
      genParams_error_of_bad_mem ctx m fi
        (fun p => ⟨_, fieldStep_error_of_find_none ctx m fi hf p⟩)
        (ctx.interp m.typeName) [] hmem
    exact ⟨e, by simp only [generateMessageClass, he]⟩
  · intro src m l1 l2 fi g df od hsplit hne ho hf hdo hdis
    obtain ⟨sf, hsf, hdis2⟩ := hdis
    have hbad := oneofInfo_error_of_sample_disagreement ctx m od sf hsf hdis2
    obtain ⟨e, he⟩ := genParams_error_prefix ctx m g fi df od ho hf hdo hbad l1 l2 [] hne rfl
    rw [← hsplit] at he
    exact ⟨e, by simp only [generateMessageClass, he]⟩

/-- Closed witness for `c2_metadata_disagreement_fatal`: a message whose
interpreter reports a field with no descriptor, and a message whose oneof
sample member carries no group name in the metadata. -/
theorem c2_metadata_disagreement_fatal_witness :
    (∃ e, generateMessageClass badCtx [] badMsg1 = .error e) ∧
    (∃ e, generateMessageClass badCtx [] badMsg2 = .error e) :=
  ⟨(c2_metadata_disagreement_fatal badCtx).1 [] badMsg1 ghostFieldInfo
      (by simp [badCtx, badMsg1]) rfl,
   (c2_metadata_disagreement_fatal badCtx).2 [] badMsg2 [bad2InfoX] [] bad2InfoY "grp"
      bad2DescY bad2Oneof rfl
      (by intro fj hj; simp at hj; subst hj; simp [bad2InfoX])
      rfl rfl rfl
      ⟨bad2DescX, rfl, .inr ⟨bad2InfoX, rfl, rfl⟩⟩⟩

/-- Helper: full case analysis of one successful loop body — a regular
field emits a parameter named by its local name with its `opt` flag and
leaves the processed groups unchanged; an already-processed oneof member
emits nothing; an unprocessed oneof member emits the single group parameter
(group local name, union type, never optional) and records the group. -/
theorem fieldStep_spec (ctx : GenContext) (m : DescMessage) (fi : FieldInfo)
    (p : List String) (x : Option Param) (p2 : List String)
    (hs : fieldStep ctx m fi p = .ok (x, p2)) :
    (activeOneofKey m fi = none ∧ p2 = p ∧
      ∃ df t, m.fields.find? (fun d => d.number == fi.no) = some df ∧
        createTypeNode ctx df fi = .ok t ∧
        x = some { name := fi.localName, optional := fi.opt, type := t }) ∨
    (∃ g, activeOneofKey m fi = some g ∧ p.contains g = true ∧ x = none ∧ p2 = p) ∨
    (∃ g, activeOneofKey m fi = some g ∧ p.contains g = false ∧ p2 = p ++ [g] ∧
      ∃ df od fl gname ut,
        m.fields.find? (fun d => d.number == fi.no) = some df ∧
        descFieldOneof m df = some od ∧
        oneofInfo ctx m od = .ok (fl, gname) ∧
        createOneofADTTypeNode ctx m od = .ok ut ∧
        x = some { name := gname, optional := false, type := ut }) := by
  unfold fieldStep at hs
  cases hf : m.fields.find? (fun d => d.number == fi.no) with
  | none => rw [hf] at hs; cases hs
  | some df =>
    rw [hf] at hs
    dsimp only at hs
    cases ho : fi.oneof with
    | none =>
      rw [ho] at hs
      cases hdo : descFieldOneof m df with
      | none =>
        rw [hdo] at hs; dsimp only at hs
        cases hct : createTypeNode ctx df fi with
        | error e => rw [hct] at hs; cases hs
        | ok t =>
          rw [hct] at hs; cases hs
          exact .inl ⟨by unfold activeOneofKey; rw [hf]; dsimp only; rw [ho, hdo],
            rfl, df, t, rfl, hct, rfl⟩
      | some od =>
        rw [hdo] at hs; dsimp only at hs
        cases hct : createTypeNode ctx df fi with
        | error e => rw [hct] at hs; cases hs
        | ok t =>
          rw [hct] at hs; cases hs
          exact .inl ⟨by unfold activeOneofKey; rw [hf]; dsimp only; rw [ho, hdo],
            rfl, df, t, rfl, hct, rfl⟩
    | some g =>
      rw [ho] at hs
      cases hdo : descFieldOneof m df with
      | none =>
        rw [hdo] at hs; dsimp only at hs
        cases hct : createTypeNode ctx df fi with
        | error e => rw [hct] at hs; cases hs
        | ok t =>
          rw [hct] at hs; cases hs
          exact .inl ⟨by unfold activeOneofKey; rw [hf]; dsimp only; rw [ho, hdo],
            rfl, df, t, rfl, hct, rfl⟩
      | some od =>
        rw [hdo] at hs; dsimp only at hs
        by_cases hc : p.contains g = true
        · rw [if_pos hc] at hs; cases hs
          exact .inr (.inl ⟨g,
            by unfold activeOneofKey; rw [hf]; dsimp only; rw [ho, hdo], hc, rfl, rfl⟩)
        · have hc2 : p.contains g = false := by
            revert hc; cases p.contains g <;> simp
          rw [if_neg hc] at hs
          cases hi : oneofInfo ctx m od with
          | error e => rw [hi] at hs; cases hs
          | ok y =>
            obtain ⟨fl, gname⟩ := y
            rw [hi] at hs; dsimp only at hs
            cases ha : createOneofADTTypeNode ctx m od with
            | error e => rw [ha] at hs; cases hs
            | ok ut =>
              rw [ha] at hs; cases hs
              exact .inr (.inr ⟨g,
                by unfold activeOneofKey; rw [hf]; dsimp only; rw [ho, hdo],
                hc2, rfl, df, od, fl, gname, ut, rfl, hdo, hi, ha, rfl⟩)

/-- Helper: the number of emitted constructor parameters equals the
spec-side count (one per regular field, one per distinct unprocessed
group). -/
theorem genParams_length_spec (ctx : GenContext) (m : DescMessage) :
    ∀ (l : List FieldInfo) (p : List String) (ps : List Param),
      genParams ctx m l p = .ok ps →
      ps.length = paramCountSpec (activeOneofKey m) l p := by
  intro l
  induction l with
  | nil =>
    intro p ps h
    simp only [genParams] at h
    cases h
    rfl
  | cons fi rest ih =>
    intro p ps h
    simp only [genParams] at h
    cases hs : fieldStep ctx m fi p with
    | error e => rw [hs] at h; cases h
    | ok y =>
      obtain ⟨x, p2⟩ := y
      rcases fieldStep_spec ctx m fi p x p2 hs with
        ⟨hkey, hp2, df, t, hfind, hct, hx⟩ | ⟨g, hkey, hc, hx, hp2⟩ |
        ⟨g, hkey, hc, hp2, df, od, fl, gname, ut, hfind, hdo, hi, ha, hx⟩
      · subst hx
        rw [hs] at h
        dsimp only at h
        rw [hp2] at h
        cases hr : genParams ctx m rest p with
        | error e => rw [hr] at h; cases h
        | ok ps2 =>
          rw [hr] at h; cases h
          have hlen := ih p ps2 hr
          simp [paramCountSpec, hkey, hlen]
      · subst hx
        rw [hs] at h
        dsimp only at h
        rw [hp2] at h
        have hlen := ih p ps h
        have hc2 : g ∈ p := by simpa using hc
        simp [paramCountSpec, hkey, hc2, hlen]
      · subst hx
        rw [hs] at h
        dsimp only at h
        rw [hp2] at h
        cases hr : genParams ctx m rest (p ++ [g]) with
        | error e => rw [hr] at h; cases h
        | ok ps2 =>
          rw [hr] at h; cases h
          have hlen := ih (p ++ [g]) ps2 hr
          have hc2 : g ∉ p := by simpa using hc
          simp [paramCountSpec, hkey, hc2, hlen]

/-- Helper: a parameter carrying the question token can only originate from
a regular (non-group) field whose `opt` flag is set; group parameters are
never optional. -/
theorem genParams_optional_origin (ctx : GenContext) (m : DescMessage) :
    ∀ (l : List FieldInfo) (p : List String) (ps : List Param),
      genParams ctx m l p = .ok ps →
      ∀ q ∈ ps, q.optional = true →
        ∃ fi ∈ l, activeOneofKey m fi = none ∧ q.name = fi.localName ∧ fi.opt = true := by
  intro l
  induction l with
  | nil =>
    intro p ps h q hq _
    simp only [genParams] at h
    cases h
    exact absurd hq (List.not_mem_nil q)
  | cons fi rest ih =>
    intro p ps h q hq hopt
    simp only [genParams] at h
    cases hs : fieldStep ctx m fi p with
    | error e => rw [hs] at h; cases h
    | ok y =>
      obtain ⟨x, p2⟩ := y
      rcases fieldStep_spec ctx m fi p x p2 hs with
        ⟨hkey, hp2, df, t, hfind, hct, hx⟩ | ⟨g, hkey, hc, hx, hp2⟩ |
        ⟨g, hkey, hc, hp2, df, od, fl, gname, ut, hfind, hdo, hi, ha, hx⟩
      · subst hx
        rw [hs] at h
        dsimp only at h
        rw [hp2] at h
        cases hr : genParams ctx m rest p with
        | error e => rw [hr] at h; cases h
        | ok ps2 =>
          rw [hr] at h; cases h
          rcases List.mem_cons.mp hq with hq1 | hq2
          · subst hq1
            exact ⟨fi, List.mem_cons_self fi rest, hkey, rfl, hopt⟩
          · obtain ⟨fj, hmem, hj⟩ := ih p ps2 hr q hq2 hopt
            exact ⟨fj, List.mem_cons_of_mem fi hmem, hj⟩
      · subst hx
        rw [hs] at h
        dsimp only at h
        rw [hp2] at h
        obtain ⟨fj, hmem, hj⟩ := ih p ps h q hq hopt
        exact ⟨fj, List.mem_cons_of_mem fi hmem, hj⟩
      · subst hx
        rw [hs] at h
        dsimp only at h
        rw [hp2] at h
        cases hr : genParams ctx m rest (p ++ [g]) with
        | error e => rw [hr] at h; cases h
        | ok ps2 =>
          rw [hr] at h; cases h
          rcases List.mem_cons.mp hq with hq1 | hq2
          · subst hq1; simp at hopt
          · obtain ⟨fj, hmem, hj⟩ := ih (p ++ [g]) ps2 hr q hq2 hopt
            exact ⟨fj, List.mem_cons_of_mem fi hmem, hj⟩

/-- Helper: reaching an unprocessed oneof member emits exactly one
parameter for the whole group — bearing the group's local name and its
union type, with no question token — and marks the group processed for the
remainder of the pass. -/
theorem genParams_cons_emit (ctx : GenContext) (m : DescMessage) (fi : FieldInfo)
    (rest : List FieldInfo) (p : List String) (g : String) (df : DescField) (od : DescOneof)
    (fl : List FieldInfo) (gname : String) (ut : TypeNode)
    (ho : fi.oneof = some g)
    (hf : m.fields.find? (fun d => d.number == fi.no) = some df)
    (hdo : descFieldOneof m df = some od)
    (hc : p.contains g = false)
    (hinfo : oneofInfo ctx m od = .ok (fl, gname))
    (hadt : createOneofADTTypeNode ctx m od = .ok ut) :
    genParams ctx m (fi :: rest) p
      = match genParams ctx m rest (p ++ [g]) with
        | .error e => .error e
        | .ok ps => .ok ({ name := gname, optional := false, type := ut } :: ps) := by
  have hstep : fieldStep ctx m fi p
      = .ok (some { name := gname, optional := false, type := ut }, p ++ [g]) := by
    unfold fieldStep
    rw [hf]; dsimp only
    rw [ho, hdo]; dsimp only
    rw [if_neg (by rw [hc]; exact Bool.false_ne_true)]
    rw [hinfo]; dsimp only
    rw [hadt]
  simp only [genParams, hstep]

/-- C5: during one pass, (a) the number of emitted constructor parameters
equals the spec-side count in which each alternative group contributes
exactly once however many members it has (subsequent members being skipped
via the processed-group list keyed by group name); (b) a parameter with the
question token can only come from a regular field's `opt` flag, so group
parameters never carry the optional marker; (c) an unprocessed group member
emits the single group parameter bearing the group's local name and the
group's union type, never optional, and records the group as processed. -/
theorem c5_single_param_per_group (ctx : GenContext) (m : DescMessage) :
    (∀ (l : List FieldInfo) (p : List String) (ps : List Param),
      genParams ctx m l p = .ok ps →
      ps.length = paramCountSpec (activeOneofKey m) l p) ∧
    (∀ (l : List FieldInfo) (p : List String) (ps : List Param),
      genParams ctx m l p = .ok ps →
      ∀ q ∈ ps, q.optional = true →
        ∃ fi ∈ l, activeOneofKey m fi = none ∧ q.name = fi.localName ∧ fi.opt = true) ∧
    (∀ (fi : FieldInfo) (rest : List FieldInfo) (p : List String) (g : String)
       (df : DescField) (od : DescOneof) (fl : List FieldInfo) (gname : String)
       (ut : TypeNode),
      fi.oneof = some g →
      m.fields.find? (fun d => d.number == fi.no) = some df →
      descFieldOneof m df = some od →
      p.contains g = false →
      oneofInfo ctx m od = .ok (fl, gname) →
      createOneofADTTypeNode ctx m od = .ok ut →
      genParams ctx m (fi :: rest) p
        = match genParams ctx m rest (p ++ [g]) with
          | .error e => .error e
          | .ok ps => .ok ({ name := gname, optional := false, type := ut } :: ps)) :=
  ⟨genParams_length_spec ctx m, genParams_optional_origin ctx m,
   fun fi rest p g df od fl gname ut ho hf hdo hc hinfo hadt =>
     genParams_cons_emit ctx m fi rest p g df od fl gname ut ho hf hdo hc hinfo hadt⟩

/-- Closed witness for `c5_single_param_per_group`: the sample message with
a two-member group yields three parameters, matching the spec-side count. -/
theorem c5_single_param_per_group_witness :
    ∃ ps, genParams shapeCtx shapeMsg shapeFieldInfos [] = .ok ps ∧
      ps.length = paramCountSpec (activeOneofKey shapeMsg) shapeFieldInfos [] :=
  ⟨_, rfl, (c5_single_param_per_group shapeCtx shapeMsg).1 shapeFieldInfos [] _ rfl⟩

end MessageClassGen
